import Mathlib

/-!
Verification of the image-import app (src/src/app.tsx) against its
natural-language specification.

The component App keeps four pieces of React state
(imageUrl, isUploading, error, success) and runs two asynchronous
pipelines, handleFileUpload and handleUrlUpload.  We embed each pipeline
as a pure function from its input and the outcomes of its external
collaborators (file reader, HEAD fetch, image decode, upload service,
document insertion, durable-storage confirmation) to the list of
observable events it performs, in program order.  State setters are
events; applying the events in order to a UiState value reproduces the
React state after the run.

JavaScript string primitives used by the source (String.prototype.split,
trim, toLowerCase, startsWith, includes, and the regex scan
/data:([^;]+)/) are embedded as executable functions over List Char with
the same semantics, so that every definition evaluates inside the kernel.
-/

/-- Observable events of one pipeline run, in program order.  The four
set* events are the React state setters; the call* events mark each
invocation of an external collaborator. -/
inductive Ev where
  | setImageUrl (value : String)
  | setIsUploading (b : Bool)
  | setError (e : Option String)
  | setSuccess (b : Bool)
  | callHeadFetch
  | callDecode
  | callUpload (mimeType : String)
  | uploadReturned (ref : Nat)
  | callAddElement (ref : Nat)
  | callWhenUploaded
  | whenUploadedResolved
  deriving DecidableEq

/-- The React state of App (app.tsx lines 19-22). -/
structure UiState where
  imageUrl : String
  isUploading : Bool
  error : Option String
  success : Bool
  deriving DecidableEq

/-- Initial state: useState("") / useState(false) / useState(null) /
useState(false), app.tsx lines 19-22. -/
def uiInit : UiState := ⟨"", false, none, false⟩

/-- Effect of one event on the React state; collaborator calls do not
touch the state. -/
def applyEv (s : UiState) : Ev → UiState
  | Ev.setImageUrl v => ⟨v, s.isUploading, s.error, s.success⟩
  | Ev.setIsUploading b => ⟨s.imageUrl, b, s.error, s.success⟩
  | Ev.setError e => ⟨s.imageUrl, s.isUploading, e, s.success⟩
  | Ev.setSuccess b => ⟨s.imageUrl, s.isUploading, s.error, b⟩
  | _ => s

/-- Replay a list of events over a state. -/
def runEvs (s : UiState) (evs : List Ev) : UiState := evs.foldl applyEv s

/-- Number of events satisfying a predicate. -/
def countEv (p : Ev → Bool) (evs : List Ev) : Nat := (evs.filter p).length

/-- JavaScript s.startsWith(pre). -/
def strStartsWith (s pre : String) : Bool :=
  s.data.take pre.data.length == pre.data

/-- JavaScript String.prototype.trim on the character list (whitespace
stripped from both ends). -/
def trimChars (l : List Char) : List Char :=
  ((l.dropWhile Char.isWhitespace).reverse.dropWhile Char.isWhitespace).reverse

/-- JavaScript url.trim(). -/
def jsTrim (s : String) : String := ⟨trimChars s.data⟩

/-- Whether the pattern occurs as a contiguous run somewhere in the list
(JavaScript String.prototype.includes). -/
def subOccurs (pat : List Char) : List Char → Bool
  | [] => pat.isEmpty
  | c :: cs => ((c :: cs).take pat.length == pat) || subOccurs pat cs

/-- JavaScript s.includes(pat). -/
def strIncludes (s pat : String) : Bool := subOccurs pat.data s.data

/-- JavaScript String.prototype.split with a one-character separator:
always returns a non-empty list of (possibly empty) segments. -/
def splitOnChar (sep : Char) : List Char → List (List Char)
  | [] => [[]]
  | c :: cs =>
    if c = sep then [] :: splitOnChar sep cs
    else
      match splitOnChar sep cs with
      | [] => [[c]]
      | h :: t => (c :: h) :: t

/-- app.tsx line 81: url.split(".").pop()?.toLowerCase().split("?")[0].
split never returns an empty array in JavaScript, so pop is modelled by
getLastD; index [0] of a split result is its head. -/
def urlExtension (url : String) : List Char :=
  (splitOnChar '?' (((splitOnChar '.' url.data).getLastD []).map Char.toLower)).headD []

/-- Outcome of the FileReader read of the first 8 bytes of the file
(app.tsx lines 111-139): the load event fired with an optional
ArrayBuffer, or the error event fired.  On a real platform a successful
load delivers the first (at most) 8 bytes of the file. -/
inductive ReadOutcome where
  | loaded (buffer : Option (List Nat))
  | failed
  deriving DecidableEq

/-- Outcome of the HEAD fetch (app.tsx line 67): the promise rejected
(network or CORS failure), or a response arrived whose content-type
header is present or absent. -/
inductive HeadOutcome where
  | threw
  | response (contentType : Option String)
  deriving DecidableEq

/-- app.tsx lines 101-141, getFileMimeType.  The declared file.type is
consulted first; only when it is none of the three recognised values is
the byte read performed.  bytes is the Uint8Array over
arrayBuffer.slice(0, 8); an out-of-range index yields undefined in
JavaScript, which compares unequal to every number, modelled by the
optional lookup. -/
def getFileMimeType (fileType : String) (read : ReadOutcome) : String :=
  if fileType = "image/png" then "image/png"
  else if fileType = "image/jpeg" || fileType = "image/jpg" then "image/jpeg"
  else
    match read with
    | ReadOutcome.failed => "image/jpeg"
    | ReadOutcome.loaded none => "image/jpeg"
    | ReadOutcome.loaded (some raw) =>
      if (raw.take 8)[0]? = some 0x89 ∧ (raw.take 8)[1]? = some 0x50 ∧
         (raw.take 8)[2]? = some 0x4e ∧ (raw.take 8)[3]? = some 0x47 then
        "image/png"
      else if (raw.take 8)[0]? = some 0xff ∧ (raw.take 8)[1]? = some 0xd8 ∧
          (raw.take 8)[2]? = some 0xff then
        "image/jpeg"
      else
        "image/jpeg"

/-- First match of the regex /data:([^;]+)/ (app.tsx line 40): scan left
to right for a position where the literal "data:" is followed by at
least one non-semicolon character; the captured group is the maximal
such run.  A position where "data:" matches but the run would be empty
is not a match, and scanning continues one character further on. -/
def dataMimeMatch : List Char → Option (List Char)
  | [] => none
  | c :: cs =>
    if (c :: cs).take 5 = "data:".data then
      match ((c :: cs).drop 5).takeWhile (fun x => x != ';') with
      | [] => dataMimeMatch cs
      | t => some t
    else dataMimeMatch cs

/-- app.tsx lines 39-49: the MIME type computed for a data URL.  The
captured token is compared against the three recognised values, with
image/jpeg as the default. -/
def getImageInfoDataMime (url : String) : String :=
  match dataMimeMatch url.data with
  | none => "image/jpeg"
  | some detectedType =>
    if detectedType = "image/png".data then "image/png"
    else if detectedType = "image/jpeg".data || detectedType = "image/jpg".data then
      "image/jpeg"
    else "image/jpeg"

/-- app.tsx lines 64-85: the MIME type computed for a remote URL.  When
the HEAD fetch resolves, only a present content-type header is
inspected (substring tests); a missing header keeps the image/jpeg
default.  Only when the fetch throws does the catch block fall back to
the extension of the URL. -/
def remoteMime (url : String) (head : HeadOutcome) : String :=
  match head with
  | HeadOutcome.response none => "image/jpeg"
  | HeadOutcome.response (some contentType) =>
    if strIncludes contentType "image/png" then "image/png"
    else if strIncludes contentType "image/jpeg" || strIncludes contentType "image/jpg" then
      "image/jpeg"
    else "image/jpeg"
  | HeadOutcome.threw =>
    if urlExtension url = "png".data then "image/png" else "image/jpeg"

/-- app.tsx lines 35-98, getImageInfo: the events it performs and its
result.  For a data URL no fetch happens; otherwise the HEAD fetch runs
first (it is awaited even when it throws).  In both branches the image
decode then runs; a decode failure rejects the whole call. -/
def getImageInfoRun (url : String) (head : HeadOutcome) (decode : Option (Nat × Nat)) :
    List Ev × Except Unit (Nat × Nat × String) :=
  if strStartsWith url "data:" then
    match decode with
    | some wh => ([Ev.callDecode], Except.ok (wh.1, wh.2, getImageInfoDataMime url))
    | none => ([Ev.callDecode], Except.error ())
  else
    match decode with
    | some wh => ([Ev.callHeadFetch, Ev.callDecode], Except.ok (wh.1, wh.2, remoteMime url head))
    | none => ([Ev.callHeadFetch, Ev.callDecode], Except.error ())

/-- Modelled from the spec: the platform URL constructor (new URL at
app.tsx line 229) is not part of the repository source.  The spec (4.2)
requires the Content Loader to "convert a UrlSource into a validated
absolute URI (a malformed URI must fail fast ...)".  We model validity
as: the string has a scheme, i.e. a nonempty run of characters before a
colon, starting with a letter and consisting of letters, digits, plus,
minus and dot. -/
def isValidAbsoluteUri (url : String) : Bool :=
  match url.data.dropWhile (fun c => c != ':') with
  | [] => false
  | _ :: _ =>
    let scheme := url.data.takeWhile (fun c => c != ':')
    (!scheme.isEmpty) &&
      scheme.all (fun c => c.isAlpha || c.isDigit || c == '+' || c == '-' || c == '.') &&
      (scheme.headD ' ').isAlpha

/-- app.tsx line 216. -/
def msgEnterUrl : String := "Please enter an image URL"

/-- app.tsx line 264. -/
def msgValidUrl : String := "Please enter a valid URL"

/-- app.tsx line 273: generic failure message of the URL pipeline, used
when the caught value is not an Error (for example the decode rejection,
which rejects with an Event). -/
def msgUrlGeneric : String := "Failed to upload image. Please check the URL and try again."

/-- app.tsx line 148. -/
def msgSelectImage : String := "Please select an image file"

/-- app.tsx line 200: generic failure message of the file pipeline. -/
def msgFileGeneric : String := "Failed to upload image. Please try again."

/-- Common tail of both pipelines (app.tsx lines 170-194 and 234-259):
upload, then addElement with the returned ref, then whenUploaded, then
the success writes.  A rejection of any step is caught by the shared
catch block, which surfaces err.message for Error values. -/
def finishPipeline (mimeType : String) (upl : Except String Nat)
    (addEl : Except String Unit) (whenUp : Except String Unit) : List Ev :=
  match upl with
  | Except.error m => [Ev.callUpload mimeType, Ev.setError (some m)]
  | Except.ok ref =>
    Ev.callUpload mimeType :: Ev.uploadReturned ref ::
      (match addEl with
       | Except.error m => [Ev.callAddElement ref, Ev.setError (some m)]
       | Except.ok _ =>
         Ev.callAddElement ref ::
           (match whenUp with
            | Except.error m => [Ev.callWhenUploaded, Ev.setError (some m)]
            | Except.ok _ =>
              [Ev.callWhenUploaded, Ev.whenUploadedResolved,
               Ev.setSuccess true, Ev.setImageUrl ""]))

/-- Outcomes of the external collaborators consulted by one run of
handleUrlUpload. -/
structure UrlEnv where
  head : HeadOutcome
  decode : Option (Nat × Nat)
  uploadResult : Except String Nat
  addElementResult : Except String Unit
  whenUploadedResult : Except String Unit

/-- app.tsx lines 211-283, handleUrlUpload, as its event trace.  The
empty-after-trim guard returns before any state churn except the error
write; otherwise the busy/reset writes happen, then URL validation
(whose failure is caught as the distinct invalid-URL TypeError), then
getImageInfo, then the shared tail; the finally block always clears the
busy flag. -/
def handleUrlUpload (url : String) (env : UrlEnv) : List Ev :=
  if jsTrim url = "" then
    [Ev.setError (some msgEnterUrl)]
  else
    Ev.setIsUploading true :: Ev.setError none :: Ev.setSuccess false ::
      ((if isValidAbsoluteUri url = false then
          [Ev.setError (some msgValidUrl)]
        else
          (getImageInfoRun url env.head env.decode).1 ++
            (match (getImageInfoRun url env.head env.decode).2 with
             | Except.error _ => [Ev.setError (some msgUrlGeneric)]
             | Except.ok whm =>
               finishPipeline whm.2.2 env.uploadResult env.addElementResult
                 env.whenUploadedResult)) ++
        [Ev.setIsUploading false])

/-- A local file as the handler sees it: name, declared type, bytes. -/
structure FileData where
  name : String
  declaredType : String
  bytes : List Nat
  deriving DecidableEq

/-- Outcomes of the external collaborators consulted by one run of
handleFileUpload.  sigRead is the FileReader read inside
getFileMimeType; dataUrlRead is the fileToDataUrl read (its error value
is a ProgressEvent, not an Error, so the catch shows the generic
message); head is only consulted in the unreachable case of a data URL
result that does not start with "data:". -/
structure FileEnv where
  sigRead : ReadOutcome
  dataUrlRead : Except Unit String
  head : HeadOutcome
  decode : Option (Nat × Nat)
  uploadResult : Except String Nat
  addElementResult : Except String Unit
  whenUploadedResult : Except String Unit

/-- app.tsx lines 143-209, handleFileUpload, as its event trace.  The
non-image guard returns with only the error write; otherwise the
busy/reset writes happen, then getFileMimeType (no observable state
events), then fileToDataUrl, then getImageInfo on the data URL, then
the shared tail with the sniffed MIME type; the finally block always
clears the busy flag. -/
def handleFileUpload (file : FileData) (env : FileEnv) : List Ev :=
  if strStartsWith file.declaredType "image/" = false then
    [Ev.setError (some msgSelectImage)]
  else
    Ev.setIsUploading true :: Ev.setError none :: Ev.setSuccess false ::
      ((match env.dataUrlRead with
        | Except.error _ => [Ev.setError (some msgFileGeneric)]
        | Except.ok dataUrl =>
          (getImageInfoRun dataUrl env.head env.decode).1 ++
            (match (getImageInfoRun dataUrl env.head env.decode).2 with
             | Except.error _ => [Ev.setError (some msgFileGeneric)]
             | Except.ok _ =>
               finishPipeline (getFileMimeType file.declaredType env.sigRead)
                 env.uploadResult env.addElementResult env.whenUploadedResult)) ++
        [Ev.setIsUploading false])

/-- app.tsx lines 324-328: the onChange handler of the URL TextInput. -/
def onChange (value : String) : List Ev :=
  [Ev.setImageUrl value, Ev.setError none, Ev.setSuccess false]

/-- An order-preserving merge of two event traces, driven by a schedule:
true takes the next event of the first trace, false of the second; an
exhausted schedule appends what remains. -/
def interleave : List Bool → List Ev → List Ev → List Ev
  | [], l1, l2 => l1 ++ l2
  | true :: sch, l1, l2 =>
    match l1 with
    | [] => l2
    | a :: t1 => a :: interleave sch t1 l2
  | false :: sch, l1, l2 =>
    match l2 with
    | [] => l1
    | b :: t2 => b :: interleave sch l1 t2

/-- Is the event an invocation of the remote upload collaborator? -/
def isCallUpload : Ev → Bool
  | Ev.callUpload _ => true
  | _ => false

/-- Is the event any external work (network, decode, upload, insertion,
confirmation)? -/
def isExternalCall : Ev → Bool
  | Ev.callHeadFetch => true
  | Ev.callDecode => true
  | Ev.callUpload _ => true
  | Ev.callAddElement _ => true
  | Ev.callWhenUploaded => true
  | _ => false

/-- The terminal segment shared by every successful run: upload call and
return, insertion with the returned ref, confirmation request and
resolution, the success writes, and the busy-flag clear from finally. -/
def successSuffix (ref : Nat) (mimeType : String) : List Ev :=
  [Ev.callUpload mimeType, Ev.uploadReturned ref, Ev.callAddElement ref,
   Ev.callWhenUploaded, Ev.whenUploadedResolved, Ev.setSuccess true,
   Ev.setImageUrl "", Ev.setIsUploading false]

/-- The ordering property of claim C5: the trace decomposes into a
pre-segment containing no upload return, no insertion, no confirmation
resolution and no success write, followed by the success tail, which
performs them in the required order. -/
def insertAfterUploadOrder (evs : List Ev) : Prop :=
  ∃ ref mimeType pre, evs = pre ++ successSuffix ref mimeType ∧
    (∀ r, Ev.uploadReturned r ∉ pre) ∧
    (∀ r, Ev.callAddElement r ∉ pre) ∧
    Ev.whenUploadedResolved ∉ pre ∧
    Ev.setSuccess true ∉ pre

/-- A collaborator environment in which every step of the URL pipeline
succeeds: the HEAD fetch throws (extension fallback), the decode gives
2 by 3 pixels, the upload returns handle 7, insertion and confirmation
succeed. -/
def okUrlEnv : UrlEnv :=
  ⟨HeadOutcome.threw, some (2, 3), Except.ok 7, Except.ok (), Except.ok ()⟩

/-- A collaborator environment in which the upload collaborator rejects
with the message "boom". -/
def failUrlEnv : UrlEnv :=
  ⟨HeadOutcome.threw, some (4, 5), Except.error "boom", Except.ok (), Except.ok ()⟩

/-- A concrete PNG file input. -/
def okFile : FileData := ⟨"a.png", "image/png", [137, 80, 78, 71]⟩

/-- A collaborator environment in which every step of the file pipeline
succeeds. -/
def okFileEnv : FileEnv :=
  ⟨ReadOutcome.loaded (some [137, 80, 78, 71]), Except.ok "data:image/png;base64,AA",
    HeadOutcome.threw, some (2, 3), Except.ok 7, Except.ok (), Except.ok ()⟩

/-- The schedule used for the superseding counterexample: the first
attempt performs its three synchronous start writes, then the whole of
the second attempt runs, then the first attempt resumes and finishes. -/
def c2sched : List Bool :=
  [true, true, true, false, false, false, false, false, false, false, false]

/-! ## Helper lemmas -/

theorem take_four_eq {α : Type} {raw : List α} {a b c d : α}
    (h : raw.take 4 = [a, b, c, d]) : ∃ t, raw = a :: b :: c :: d :: t := by
  match raw with
  | [] => simp at h
  | [x] => simp at h
  | [x, y] => simp at h
  | [x, y, z] => simp at h
  | x :: y :: z :: w :: t =>
    simp [List.take] at h
    obtain ⟨h1, h2, h3, h4⟩ := h
    subst h1; subst h2; subst h3; subst h4
    exact ⟨t, rfl⟩

theorem take_three_eq {α : Type} {raw : List α} {a b c : α}
    (h : raw.take 3 = [a, b, c]) : ∃ t, raw = a :: b :: c :: t := by
  match raw with
  | [] => simp at h
  | [x] => simp at h
  | [x, y] => simp at h
  | x :: y :: z :: t =>
    simp [List.take] at h
    obtain ⟨h1, h2, h3⟩ := h
    subst h1; subst h2; subst h3
    exact ⟨t, rfl⟩

/-! ## C1: byte signatures versus the declared file type -/

/-- C1 — counterexample to the claim as stated: a local file whose
leading bytes are the PNG signature 89 50 4E 47 but whose declared
(caller-supplied) type is image/jpeg is classified image/jpeg by
getFileMimeType; the declared type, not the byte signature, takes
precedence (app.tsx lines 103-108 run before the byte read). -/
theorem C1_counterexample :
    [0x89, 0x50, 0x4e, 0x47, 0, 0, 0, 0].take 4 = [0x89, 0x50, 0x4e, 0x47] ∧
    getFileMimeType "image/jpeg"
      (ReadOutcome.loaded (some [0x89, 0x50, 0x4e, 0x47, 0, 0, 0, 0])) ≠ "image/png" := by
  exact ⟨rfl, by decide⟩

/-- C1 — amended: byte-signature inspection decides only for files whose
declared type is none of image/png, image/jpeg, image/jpg; for those
files the PNG signature 89 50 4E 47 yields PNG and FF D8 FF yields
JPEG.  A declared type equal to one of the three recognised values
takes precedence over the bytes. -/
theorem C1_theorem (fileType : String) (raw : List Nat) (read : ReadOutcome)
    (hp : fileType ≠ "image/png") (hj : fileType ≠ "image/jpeg")
    (hg : fileType ≠ "image/jpg") :
    (raw.take 4 = [0x89, 0x50, 0x4e, 0x47] →
      getFileMimeType fileType (ReadOutcome.loaded (some raw)) = "image/png") ∧
    (raw.take 3 = [0xff, 0xd8, 0xff] →
      getFileMimeType fileType (ReadOutcome.loaded (some raw)) = "image/jpeg") ∧
    getFileMimeType "image/png" read = "image/png" ∧
    getFileMimeType "image/jpeg" read = "image/jpeg" ∧
    getFileMimeType "image/jpg" read = "image/jpeg" := by
  refine ⟨?_, ?_, rfl, rfl, rfl⟩
  · intro h
    obtain ⟨t, rfl⟩ := take_four_eq h
    simp [getFileMimeType, hp, hj, hg, List.take]
  · intro h
    obtain ⟨t, rfl⟩ := take_three_eq h
    simp [getFileMimeType, hp, hj, hg, List.take]

/-- C1 — witness for the amended theorem at concrete inputs: an
undeclared type with PNG bytes, and with JPEG bytes. -/
theorem C1_witness :
    getFileMimeType "" (ReadOutcome.loaded (some [0x89, 0x50, 0x4e, 0x47])) = "image/png" ∧
    getFileMimeType "" (ReadOutcome.loaded (some [0xff, 0xd8, 0xff])) = "image/jpeg" :=
  ⟨( C1_theorem "" [0x89, 0x50, 0x4e, 0x47] ReadOutcome.failed
      (by decide) (by decide) (by decide)).1 rfl,
    ( C1_theorem "" [0xff, 0xd8, 0xff] ReadOutcome.failed
      (by decide) (by decide) (by decide)).2.1 rfl⟩

/-! ## C9: totality of getFileMimeType -/

/-- C9: for every declared type and every outcome of the byte read,
including a reader error or a missing buffer, getFileMimeType produces a
value, and that value is exactly image/png or image/jpeg (app.tsx lines
111-140: every path calls resolve, never reject). -/
theorem C9_theorem (fileType : String) (read : ReadOutcome) :
    getFileMimeType fileType read = "image/png" ∨
    getFileMimeType fileType read = "image/jpeg" := by
  rcases read with b | _
  · rcases b with _ | raw
    · simp only [getFileMimeType]
      split_ifs <;> simp
    · simp only [getFileMimeType]
      split_ifs <;> simp
  · simp only [getFileMimeType]
    split_ifs <;> simp

/-! ## C7: data-URI MIME token parsing -/

theorem takeWhile_nonSemi_append (t r : List Char) (hsemi : ∀ c ∈ t, c ≠ ';') :
    (t ++ ';' :: r).takeWhile (fun x => x != ';') = t := by
  induction t with
  | nil => simp [List.takeWhile]
  | cons c cs ih =>
    have hc : c ≠ ';' := hsemi c (by simp)
    have hcb : (c != ';') = true := by simp [hc]
    simp only [List.cons_append, List.takeWhile_cons, hcb, if_true]
    exact congrArg (c :: ·) (ih (fun x hx => hsemi x (by simp [hx])))

theorem dataMimeMatch_token_first (t r : List Char) (hne : t ≠ [])
    (hsemi : ∀ c ∈ t, c ≠ ';') :
    dataMimeMatch ("data:".data ++ (t ++ ';' :: r)) = some t := by
  show dataMimeMatch ('d' :: 'a' :: 't' :: 'a' :: ':' :: (t ++ ';' :: r)) = some t
  unfold dataMimeMatch
  rw [if_pos (by simp [List.take])]
  have hd : (('d' :: 'a' :: 't' :: 'a' :: ':' :: (t ++ ';' :: r)).drop 5) = t ++ ';' :: r := rfl
  rw [hd, takeWhile_nonSemi_append t r hsemi]
  rcases t with _ | ⟨c, cs⟩
  · exact absurd rfl hne
  · rfl

theorem strStartsWith_append (p x : String) : strStartsWith (p ++ x) p = true := by
  simp [strStartsWith, String.data_append, List.take_left]

/-- C7 — counterexample to the claim as stated: the data-URI
"data:;data:image/png;x" has a missing MIME token in its prefix (the
character after "data:" is a semicolon, so the captured run there is
empty), yet the sniffer returns PNG, not the claimed JPEG: the regex
/data:([^;]+)/ is unanchored and matches the later occurrence of
"data:image/png". -/
theorem C7_counterexample :
    strStartsWith "data:;data:image/png;x" "data:" = true ∧
    strStartsWith "data:;data:image/png;x" "data:image/png;" = false ∧
    strStartsWith "data:;data:image/png;x" "data:image/jpeg;" = false ∧
    strStartsWith "data:;data:image/png;x" "data:image/jpg;" = false ∧
    ("data:;data:image/png;x".data.drop 5).takeWhile (fun x => x != ';') = [] ∧
    getImageInfoDataMime "data:;data:image/png;x" = "image/png" := by
  decide

/-- C7 — amended: for every data-URI whose prefix carries a nonempty
MIME token terminated by a semicolon (the shape "data:TOKEN;..."), the
sniffer parses that token: image/png yields PNG and every other token
(image/jpeg and image/jpg included) yields JPEG.  When the prefix token
is empty the unanchored regex may instead match a later "data:"
occurrence in the string. -/
theorem C7_theorem (t rest : String) (hne : t ≠ "") (hsemi : ∀ c ∈ t.data, c ≠ ';') :
    strStartsWith ("data:" ++ t ++ ";" ++ rest) "data:" = true ∧
    getImageInfoDataMime ("data:" ++ t ++ ";" ++ rest) =
      (if t = "image/png" then "image/png" else "image/jpeg") := by
  have hdata : ("data:" ++ t ++ ";" ++ rest).data =
      "data:".data ++ (t.data ++ ';' :: rest.data) := by
    simp [String.data_append]
  have hne' : t.data ≠ [] := by
    intro h
    apply hne
    apply String.ext
    simpa using h
  have hmatch := dataMimeMatch_token_first t.data rest.data hne' hsemi
  constructor
  · simp [strStartsWith, hdata, List.take_left]
  · simp only [getImageInfoDataMime]
    rw [hdata, hmatch]
    show (if t.data = "image/png".data then "image/png"
          else if t.data = "image/jpeg".data || t.data = "image/jpg".data then "image/jpeg"
          else "image/jpeg") =
        (if t = "image/png" then "image/png" else "image/jpeg")
    by_cases hp : t = "image/png"
    · subst hp
      rfl
    · have hp' : t.data ≠ "image/png".data := fun h => hp (String.ext h)
      rw [if_neg hp', if_neg hp, ite_self]

/-- C7 — witness for the amended theorem at a concrete input: the token
image/gif is neither of the recognised values, so the result is the
default JPEG. -/
theorem C7_witness :
    strStartsWith ("data:" ++ "image/gif" ++ ";" ++ "xyz") "data:" = true ∧
    getImageInfoDataMime ("data:" ++ "image/gif" ++ ";" ++ "xyz") =
      (if ("image/gif" : String) = "image/png" then "image/png" else "image/jpeg") :=
  C7_theorem "image/gif" "xyz" (by decide) (by decide)

/-! ## C3: extension fallback for remote URLs -/

theorem splitOnChar_ne_nil (sep : Char) (l : List Char) : splitOnChar sep l ≠ [] := by
  cases l with
  | nil => simp [splitOnChar]
  | cons c cs =>
    unfold splitOnChar
    by_cases h : c = sep
    · simp [h]
    · rw [if_neg h]
      cases hs : splitOnChar sep cs <;> simp

theorem splitOnChar_append (sep : Char) (l1 l2 : List Char) :
    splitOnChar sep (l1 ++ sep :: l2) = splitOnChar sep l1 ++ splitOnChar sep l2 := by
  induction l1 with
  | nil => simp [splitOnChar]
  | cons c cs ih =>
    by_cases h : c = sep
    · subst h
      simp [splitOnChar, ih]
    · rcases hs : splitOnChar sep cs with _ | ⟨h0, t0⟩
      · exact absurd hs (splitOnChar_ne_nil sep cs)
      · simp [splitOnChar, h, ih, hs]

/-- C3 — counterexample to the claim as stated: for a remote URL ending
in ".png?x=1" whose HEAD response carries no Content-Type header, the
sniffer keeps the image/jpeg default (app.tsx line 69: a null header is
simply not inspected, and the catch block at line 80 is not reached).
The query-stripped extension is indeed "png", and the extension
fallback would classify PNG, but it only runs when the fetch throws. -/
theorem C3_counterexample :
    remoteMime "https://example.com/image.png?x=1" (HeadOutcome.response none) = "image/jpeg" ∧
    urlExtension "https://example.com/image.png?x=1" = "png".data ∧
    remoteMime "https://example.com/image.png?x=1" HeadOutcome.threw = "image/png" := by
  decide

/-- C3 — amended: the extension fallback runs exactly when the HEAD
request itself fails (throws, e.g. network or CORS error); in that case
every URI ending in ".png?x=1" is classified PNG, with the query string
stripped after the extension is taken.  When the HEAD request succeeds
but carries no Content-Type header, the sniffer returns the default
JPEG without consulting the extension. -/
theorem C3_theorem (base : String) :
    remoteMime (base ++ ".png?x=1") HeadOutcome.threw = "image/png" ∧
    remoteMime (base ++ ".png?x=1") (HeadOutcome.response none) = "image/jpeg" := by
  constructor
  · have hdata : (base ++ ".png?x=1").data = base.data ++ '.' :: "png?x=1".data := by
      simp [String.data_append]
    have hlast : (splitOnChar '.' (base ++ ".png?x=1").data).getLastD [] = "png?x=1".data := by
      rw [hdata, splitOnChar_append '.' base.data "png?x=1".data,
        List.getLastD_eq_getLast?,
        List.getLast?_append_of_ne_nil _ (splitOnChar_ne_nil '.' "png?x=1".data)]
      rfl
    simp only [remoteMime, urlExtension, hlast]
    rfl
  · rfl

/-! ## C6: input validation of the URL flow -/

/-- C6: submitting the empty string or a whitespace-only string yields
the input-empty error and performs no external work at all; submitting
the malformed string "not a url" yields the distinct invalid-URL error
before any network, decode or upload work; the two messages differ.
The URL validity test is modelled from the spec (see
isValidAbsoluteUri). -/
theorem C6_theorem (env : UrlEnv) (s : UiState) :
    handleUrlUpload "" env = [Ev.setError (some msgEnterUrl)] ∧
    handleUrlUpload "   " env = [Ev.setError (some msgEnterUrl)] ∧
    countEv isExternalCall (handleUrlUpload "" env) = 0 ∧
    countEv isExternalCall (handleUrlUpload "   " env) = 0 ∧
    (runEvs s (handleUrlUpload "not a url" env)).error = some msgValidUrl ∧
    countEv isExternalCall (handleUrlUpload "not a url" env) = 0 ∧
    msgEnterUrl ≠ msgValidUrl := by
  exact ⟨rfl, rfl, rfl, rfl, rfl, rfl, by decide⟩

/-! ## C4: decode failure aborts before upload -/

/-- C4: in every run of either pipeline in which the image decode
oracle fails, the final state carries an error and the upload
collaborator is never invoked (zero callUpload events). -/
theorem C4_theorem (url : String) (env : UrlEnv) (file : FileData) (fenv : FileEnv)
    (s t : UiState) (hd : env.decode = none) (hfd : fenv.decode = none) :
    countEv isCallUpload (handleUrlUpload url env) = 0 ∧
    (runEvs s (handleUrlUpload url env)).error ≠ none ∧
    countEv isCallUpload (handleFileUpload file fenv) = 0 ∧
    (runEvs t (handleFileUpload file fenv)).error ≠ none := by
  have hurl : countEv isCallUpload (handleUrlUpload url env) = 0 ∧
      (runEvs s (handleUrlUpload url env)).error ≠ none := by
    by_cases h1 : jsTrim url = ""
    · simp [handleUrlUpload, h1, countEv, runEvs, applyEv, isCallUpload]
    · by_cases h2 : isValidAbsoluteUri url = false
      · simp [handleUrlUpload, h1, h2, countEv, runEvs, applyEv, isCallUpload]
      · by_cases h3 : strStartsWith url "data:"
        · simp [handleUrlUpload, h1, h2, h3, getImageInfoRun, hd, countEv, runEvs,
            applyEv, isCallUpload]
        · simp [handleUrlUpload, h1, h2, h3, getImageInfoRun, hd, countEv, runEvs,
            applyEv, isCallUpload]
  have hfile : countEv isCallUpload (handleFileUpload file fenv) = 0 ∧
      (runEvs t (handleFileUpload file fenv)).error ≠ none := by
    by_cases h1 : strStartsWith file.declaredType "image/" = false
    · simp [handleFileUpload, h1, countEv, runEvs, applyEv, isCallUpload]
    · rcases hdu : fenv.dataUrlRead with u | dataUrl
      · simp [handleFileUpload, h1, hdu, countEv, runEvs, applyEv, isCallUpload]
      · by_cases h3 : strStartsWith dataUrl "data:"
        · simp [handleFileUpload, h1, hdu, h3, getImageInfoRun, hfd, countEv, runEvs,
            applyEv, isCallUpload]
        · simp [handleFileUpload, h1, hdu, h3, getImageInfoRun, hfd, countEv, runEvs,
            applyEv, isCallUpload]
  exact ⟨hurl.1, hurl.2, hfile.1, hfile.2⟩

/-- C4 — witness at concrete inputs: a decode failure on a valid remote
URL and on a valid image file. -/
theorem C4_witness :
    countEv isCallUpload (handleUrlUpload "https://a.com/x.png"
      ⟨HeadOutcome.threw, none, Except.ok 7, Except.ok (), Except.ok ()⟩) = 0 ∧
    (runEvs uiInit (handleUrlUpload "https://a.com/x.png"
      ⟨HeadOutcome.threw, none, Except.ok 7, Except.ok (), Except.ok ()⟩)).error ≠ none ∧
    countEv isCallUpload (handleFileUpload ⟨"a.png", "image/x", [1, 2]⟩
      ⟨ReadOutcome.failed, Except.ok "data:image/png;base64,AA", HeadOutcome.threw, none,
        Except.ok 7, Except.ok (), Except.ok ()⟩) = 0 ∧
    (runEvs uiInit (handleFileUpload ⟨"a.png", "image/x", [1, 2]⟩
      ⟨ReadOutcome.failed, Except.ok "data:image/png;base64,AA", HeadOutcome.threw, none,
        Except.ok 7, Except.ok (), Except.ok ()⟩)).error ≠ none :=
  C4_theorem "https://a.com/x.png"
    ⟨HeadOutcome.threw, none, Except.ok 7, Except.ok (), Except.ok ()⟩
    ⟨"a.png", "image/x", [1, 2]⟩
    ⟨ReadOutcome.failed, Except.ok "data:image/png;base64,AA", HeadOutcome.threw, none,
      Except.ok 7, Except.ok (), Except.ok ()⟩
    uiInit uiInit rfl rfl

/-! ## C8: editing the input clears the indicators, keeps the value -/

/-- C8: from any state in which an error is shown or the success flag
is set (the Failed or Succeeded disposition), the onChange handler of
the URL input clears both indicators and stores exactly the newly
typed value. -/
theorem C8_theorem (s : UiState) (value : String)
    (h : s.error ≠ none ∨ s.success = true) :
    (runEvs s (onChange value)).error = none ∧
    (runEvs s (onChange value)).success = false ∧
    (runEvs s (onChange value)).imageUrl = value :=
  ⟨rfl, rfl, rfl⟩

/-- C8 — witness at a concrete Failed state. -/
theorem C8_witness :
    (runEvs ⟨"old", false, some "boom", false⟩ (onChange "new")).error = none ∧
    (runEvs ⟨"old", false, some "boom", false⟩ (onChange "new")).success = false ∧
    (runEvs ⟨"old", false, some "boom", false⟩ (onChange "new")).imageUrl = "new" :=
  C8_theorem ⟨"old", false, some "boom", false⟩ "new" (Or.inl (by decide))

/-! ## Success-shape lemmas shared by C5 and C10 -/

theorem getImageInfoRun_events (url : String) (head : HeadOutcome)
    (decode : Option (Nat × Nat)) :
    (getImageInfoRun url head decode).1 = [Ev.callDecode] ∨
    (getImageInfoRun url head decode).1 = [Ev.callHeadFetch, Ev.callDecode] := by
  unfold getImageInfoRun
  by_cases h : strStartsWith url "data:" <;> rcases decode with _ | wh <;> simp [h]

theorem urlSuccessShape (url : String) (env : UrlEnv)
    (hs : Ev.setSuccess true ∈ handleUrlUpload url env) :
    ∃ ref mt, handleUrlUpload url env =
      (Ev.setIsUploading true :: Ev.setError none :: Ev.setSuccess false ::
        (getImageInfoRun url env.head env.decode).1) ++ successSuffix ref mt := by
  by_cases h1 : jsTrim url = ""
  · simp [handleUrlUpload, h1] at hs
  · by_cases h2 : isValidAbsoluteUri url = false
    · simp [handleUrlUpload, h1, h2] at hs
    · rcases hres : (getImageInfoRun url env.head env.decode).2 with u | whm
      · rcases getImageInfoRun_events url env.head env.decode with hev | hev <;>
          simp [handleUrlUpload, h1, h2, hres, hev] at hs
      · rcases hupl : env.uploadResult with m | ref
        · rcases getImageInfoRun_events url env.head env.decode with hev | hev <;>
            simp [handleUrlUpload, h1, h2, hres, finishPipeline, hupl, hev] at hs
        · rcases hadd : env.addElementResult with m | u
          · rcases getImageInfoRun_events url env.head env.decode with hev | hev <;>
              simp [handleUrlUpload, h1, h2, hres, finishPipeline, hupl, hadd, hev] at hs
          · rcases hwu : env.whenUploadedResult with m | u
            · rcases getImageInfoRun_events url env.head env.decode with hev | hev <;>
                simp [handleUrlUpload, h1, h2, hres, finishPipeline, hupl, hadd, hwu,
                  hev] at hs
            · refine ⟨ref, whm.2.2, ?_⟩
              simp [handleUrlUpload, h1, h2, hres, finishPipeline, hupl, hadd, hwu,
                successSuffix]

theorem fileSuccessShape (file : FileData) (env : FileEnv)
    (hs : Ev.setSuccess true ∈ handleFileUpload file env) :
    ∃ dataUrl ref mt, env.dataUrlRead = Except.ok dataUrl ∧
      handleFileUpload file env =
        (Ev.setIsUploading true :: Ev.setError none :: Ev.setSuccess false ::
          (getImageInfoRun dataUrl env.head env.decode).1) ++ successSuffix ref mt := by
  by_cases h1 : strStartsWith file.declaredType "image/" = false
  · simp [handleFileUpload, h1] at hs
  · rcases hdu : env.dataUrlRead with u | dataUrl
    · simp [handleFileUpload, h1, hdu] at hs
    · rcases hres : (getImageInfoRun dataUrl env.head env.decode).2 with u | whm
      · rcases getImageInfoRun_events dataUrl env.head env.decode with hev | hev <;>
          simp [handleFileUpload, h1, hdu, hres, hev] at hs
      · rcases hupl : env.uploadResult with m | ref
        · rcases getImageInfoRun_events dataUrl env.head env.decode with hev | hev <;>
            simp [handleFileUpload, h1, hdu, hres, finishPipeline, hupl, hev] at hs
        · rcases hadd : env.addElementResult with m | u
          · rcases getImageInfoRun_events dataUrl env.head env.decode with hev | hev <;>
              simp [handleFileUpload, h1, hdu, hres, finishPipeline, hupl, hadd, hev] at hs
          · rcases hwu : env.whenUploadedResult with m | u
            · rcases getImageInfoRun_events dataUrl env.head env.decode with hev | hev <;>
                simp [handleFileUpload, h1, hdu, hres, finishPipeline, hupl, hadd, hwu,
                  hev] at hs
            · refine ⟨dataUrl, ref, getFileMimeType file.declaredType env.sigRead, rfl, ?_⟩
              simp [handleFileUpload, h1, hdu, hres, finishPipeline, hupl, hadd, hwu,
                successSuffix]

/-! ## C5: ordering of upload, insertion and confirmation -/

/-- C5: every run of either pipeline that reaches the success write
decomposes into a pre-segment — which contains no upload return, no
insertion call, no confirmation resolution and no success write —
followed by the fixed tail [callUpload, uploadReturned ref,
callAddElement ref, callWhenUploaded, whenUploadedResolved,
setSuccess true, setImageUrl "", setIsUploading false]: insertion is
attempted only after the upload has returned its handle (and with that
handle), and success is written only after the whenUploaded
confirmation has resolved. -/
theorem C5_theorem (url : String) (env : UrlEnv) (file : FileData) (fenv : FileEnv)
    (h1 : Ev.setSuccess true ∈ handleUrlUpload url env)
    (h2 : Ev.setSuccess true ∈ handleFileUpload file fenv) :
    insertAfterUploadOrder (handleUrlUpload url env) ∧
    insertAfterUploadOrder (handleFileUpload file fenv) := by
  constructor
  · obtain ⟨ref, mt, heq⟩ := urlSuccessShape url env h1
    refine ⟨ref, mt, _, heq, ?_, ?_, ?_, ?_⟩ <;>
      rcases getImageInfoRun_events url env.head env.decode with hev | hev <;>
        simp [hev]
  · obtain ⟨dataUrl, ref, mt, hdu, heq⟩ := fileSuccessShape file fenv h2
    refine ⟨ref, mt, _, heq, ?_, ?_, ?_, ?_⟩ <;>
      rcases getImageInfoRun_events dataUrl fenv.head fenv.decode with hev | hev <;>
        simp [hev]

/-- C5 — witness: concrete all-success runs of both pipelines. -/
theorem C5_witness :
    insertAfterUploadOrder (handleUrlUpload "https://a.com/x.png" okUrlEnv) ∧
    insertAfterUploadOrder (handleFileUpload okFile okFileEnv) :=
  C5_theorem "https://a.com/x.png" okUrlEnv okFile okFileEnv (by decide) (by decide)

/-! ## C10: success clears the typed URL -/

/-- C10: every run of either pipeline that reaches the success write
leaves the URL input value equal to the empty string, whatever the
user had typed before (setImageUrl "" at app.tsx lines 194 and 259). -/
theorem C10_theorem (url : String) (env : UrlEnv) (file : FileData) (fenv : FileEnv)
    (s t : UiState)
    (h1 : Ev.setSuccess true ∈ handleUrlUpload url env)
    (h2 : Ev.setSuccess true ∈ handleFileUpload file fenv) :
    (runEvs s (handleUrlUpload url env)).imageUrl = "" ∧
    (runEvs t (handleFileUpload file fenv)).imageUrl = "" := by
  constructor
  · obtain ⟨ref, mt, heq⟩ := urlSuccessShape url env h1
    rw [heq]
    simp only [runEvs, List.foldl_append]
    rfl
  · obtain ⟨dataUrl, ref, mt, hdu, heq⟩ := fileSuccessShape file fenv h2
    rw [heq]
    simp only [runEvs, List.foldl_append]
    rfl

/-- C10 — witness: concrete all-success runs starting from a state with
a typed value. -/
theorem C10_witness :
    (runEvs ⟨"typed", false, none, false⟩
      (handleUrlUpload "https://a.com/x.png" okUrlEnv)).imageUrl = "" ∧
    (runEvs ⟨"typed", false, none, false⟩
      (handleFileUpload okFile okFileEnv)).imageUrl = "" :=
  C10_theorem "https://a.com/x.png" okUrlEnv okFile okFileEnv
    ⟨"typed", false, none, false⟩ ⟨"typed", false, none, false⟩ (by decide) (by decide)

/-! ## C2: concurrent submissions -/

theorem runEvs_error_of_not_written (evs : List Ev) : ∀ (s : UiState),
    (∀ x, Ev.setError x ∉ evs) → (runEvs s evs).error = s.error := by
  induction evs with
  | nil => intro s _; rfl
  | cons a tl ih =>
    intro s h
    have ha : ∀ x, Ev.setError x ∉ tl := fun x hx => h x (List.mem_cons_of_mem a hx)
    have happ : (applyEv s a).error = s.error := by
      cases a <;> first
        | rfl
        | exact absurd (List.mem_cons_self _ _) (h _)
    show (runEvs (applyEv s a) tl).error = s.error
    rw [ih (applyEv s a) ha, happ]

theorem runEvs_error_irrel (evs : List Ev) : ∀ (s t : UiState),
    (∃ x, Ev.setError x ∈ evs) → (runEvs s evs).error = (runEvs t evs).error := by
  induction evs with
  | nil =>
    intro s t h
    rcases h with ⟨x, hx⟩
    cases hx
  | cons a tl ih =>
    intro s t h
    by_cases hw : ∃ x, Ev.setError x ∈ tl
    · exact ih (applyEv s a) (applyEv t a) hw
    · rcases h with ⟨x, hx⟩
      rcases List.mem_cons.mp hx with hax | hmem
      · have hnt : ∀ y, Ev.setError y ∉ tl := fun y hy => hw ⟨y, hy⟩
        show (runEvs (applyEv s a) tl).error = (runEvs t (a :: tl)).error
        rw [runEvs_error_of_not_written tl (applyEv s a) hnt]
        show (applyEv s a).error = (runEvs (applyEv t a) tl).error
        rw [runEvs_error_of_not_written tl (applyEv t a) hnt, ← hax]
        rfl
      · exact absurd hmem (fun hm => hw ⟨x, hm⟩)

theorem runEvs_success_of_not_written (evs : List Ev) : ∀ (s : UiState),
    (∀ b, Ev.setSuccess b ∉ evs) → (runEvs s evs).success = s.success := by
  induction evs with
  | nil => intro s _; rfl
  | cons a tl ih =>
    intro s h
    have ha : ∀ b, Ev.setSuccess b ∉ tl := fun b hb => h b (List.mem_cons_of_mem a hb)
    have happ : (applyEv s a).success = s.success := by
      cases a <;> first
        | rfl
        | exact absurd (List.mem_cons_self _ _) (h _)
    show (runEvs (applyEv s a) tl).success = s.success
    rw [ih (applyEv s a) ha, happ]

theorem runEvs_success_irrel (evs : List Ev) : ∀ (s t : UiState),
    (∃ b, Ev.setSuccess b ∈ evs) → (runEvs s evs).success = (runEvs t evs).success := by
  induction evs with
  | nil =>
    intro s t h
    rcases h with ⟨b, hb⟩
    cases hb
  | cons a tl ih =>
    intro s t h
    by_cases hw : ∃ b, Ev.setSuccess b ∈ tl
    · exact ih (applyEv s a) (applyEv t a) hw
    · rcases h with ⟨b, hb⟩
      rcases List.mem_cons.mp hb with hab | hmem
      · have hnt : ∀ y, Ev.setSuccess y ∉ tl := fun y hy => hw ⟨y, hy⟩
        show (runEvs (applyEv s a) tl).success = (runEvs t (a :: tl)).success
        rw [runEvs_success_of_not_written tl (applyEv s a) hnt]
        show (applyEv s a).success = (runEvs (applyEv t a) tl).success
        rw [runEvs_success_of_not_written tl (applyEv t a) hnt, ← hab]
        rfl
      · exact absurd hmem (fun hm => hw ⟨b, hm⟩)

/-- C2 — counterexample to the claim as stated: two URL submissions, the
first against an all-success environment, the second against an
environment whose upload rejects with "boom".  The second submission
starts before the first resolves (the merged trace is the first three
writes of attempt one, then all of attempt two, then the rest of
attempt one — an order-preserving interleaving under c2sched).  The
second attempt on its own ends with success = false, but the merged run
ends with success = true: the stale first attempt overwrites the
second, so the final indicators do not reflect only the second
submission. -/
theorem C2_counterexample :
    interleave c2sched (handleUrlUpload "https://a.com/x.png" okUrlEnv)
        (handleUrlUpload "https://b.com/y.png" failUrlEnv) =
      (handleUrlUpload "https://a.com/x.png" okUrlEnv).take 3 ++
        handleUrlUpload "https://b.com/y.png" failUrlEnv ++
        (handleUrlUpload "https://a.com/x.png" okUrlEnv).drop 3 ∧
    (runEvs uiInit (handleUrlUpload "https://b.com/y.png" failUrlEnv)).success = false ∧
    (runEvs uiInit (handleUrlUpload "https://b.com/y.png" failUrlEnv)).error = some "boom" ∧
    (runEvs uiInit (interleave c2sched (handleUrlUpload "https://a.com/x.png" okUrlEnv)
      (handleUrlUpload "https://b.com/y.png" failUrlEnv))).success = true := by
  decide

/-- C2 — amended: the handlers contain no superseding mechanism; the
indicators are last-writer-wins over the interleaving, so a stale first
attempt that resolves after the second overwrites the second attempt.
What does hold is the sequential case: when every event of the earlier
activity precedes the second submission, the final error and success
indicators equal exactly those of the second submission run on its own
(for any prior event list and any starting states), for both the URL
flow and the file flow. -/
theorem C2_theorem (l1 : List Ev) (url2 : String) (env2 : UrlEnv)
    (file2 : FileData) (fenv2 : FileEnv) (s t : UiState)
    (h2 : jsTrim url2 ≠ "") (hf2 : strStartsWith file2.declaredType "image/" = true) :
    ((runEvs s (l1 ++ handleUrlUpload url2 env2)).error
        = (runEvs t (handleUrlUpload url2 env2)).error ∧
      (runEvs s (l1 ++ handleUrlUpload url2 env2)).success
        = (runEvs t (handleUrlUpload url2 env2)).success) ∧
    ((runEvs s (l1 ++ handleFileUpload file2 fenv2)).error
        = (runEvs t (handleFileUpload file2 fenv2)).error ∧
      (runEvs s (l1 ++ handleFileUpload file2 fenv2)).success
        = (runEvs t (handleFileUpload file2 fenv2)).success) := by
  have herr : ∃ x, Ev.setError x ∈ handleUrlUpload url2 env2 :=
    ⟨none, by simp [handleUrlUpload, h2]⟩
  have hsuc : ∃ b, Ev.setSuccess b ∈ handleUrlUpload url2 env2 :=
    ⟨false, by simp [handleUrlUpload, h2]⟩
  have herrf : ∃ x, Ev.setError x ∈ handleFileUpload file2 fenv2 :=
    ⟨none, by simp [handleFileUpload, hf2]⟩
  have hsucf : ∃ b, Ev.setSuccess b ∈ handleFileUpload file2 fenv2 :=
    ⟨false, by simp [handleFileUpload, hf2]⟩
  refine ⟨⟨?_, ?_⟩, ?_, ?_⟩
  · rw [runEvs, List.foldl_append]
    exact runEvs_error_irrel _ _ t herr
  · rw [runEvs, List.foldl_append]
    exact runEvs_success_irrel _ _ t hsuc
  · rw [runEvs, List.foldl_append]
    exact runEvs_error_irrel _ _ t herrf
  · rw [runEvs, List.foldl_append]
    exact runEvs_success_irrel _ _ t hsucf

/-- C2 — witness for the amended theorem: a concrete earlier trace
followed by concrete second submissions. -/
theorem C2_witness :
    ((runEvs uiInit (handleUrlUpload "https://a.com/x.png" okUrlEnv ++
          handleUrlUpload "https://b.com/y.png" failUrlEnv)).error
        = (runEvs uiInit (handleUrlUpload "https://b.com/y.png" failUrlEnv)).error ∧
      (runEvs uiInit (handleUrlUpload "https://a.com/x.png" okUrlEnv ++
          handleUrlUpload "https://b.com/y.png" failUrlEnv)).success
        = (runEvs uiInit (handleUrlUpload "https://b.com/y.png" failUrlEnv)).success) ∧
    ((runEvs uiInit (handleUrlUpload "https://a.com/x.png" okUrlEnv ++
          handleFileUpload okFile okFileEnv)).error
        = (runEvs uiInit (handleFileUpload okFile okFileEnv)).error ∧
      (runEvs uiInit (handleUrlUpload "https://a.com/x.png" okUrlEnv ++
          handleFileUpload okFile okFileEnv)).success
        = (runEvs uiInit (handleFileUpload okFile okFileEnv)).success) :=
  C2_theorem (handleUrlUpload "https://a.com/x.png" okUrlEnv) "https://b.com/y.png"
    failUrlEnv okFile okFileEnv uiInit uiInit (by decide) (by decide)
